import Mathlib

/-!
Verification of the model/dataset lifecycle orchestration core
(`app/services/model_service.py`, `app/services/dataset_service.py`,
`app/ml/base.py`, `app/ml/random_forest.py`, `app/ml/logistic_regression.py`,
`app/ml/__init__.py`) against its natural-language specification.

Python dictionaries (insertion ordered, unique keys) are embedded as
association lists `List (String × α)`; the on-disk model directory and the
dataset directory are embedded the same way (file name to content).
Opaque numerical work (sklearn fit / metric computation, predictions) is
abstracted into function parameters: the claims under scrutiny are about
orchestration, lookup, merging and error-path structure, none of which
depend on the numerical payloads.
-/

/-- First-defined fallback on options (`a` if present, else `b`). -/
def oElse {α : Type} (a b : Option α) : Option α :=
  match a with
  | some x => some x
  | none => b

/-- Association-list lookup: the value at the first occurrence of key `k`. -/
def alLookup {α : Type} : List (String × α) → String → Option α
  | [], _ => none
  | (k, v) :: t, k' => if k' = k then some v else alLookup t k'

/-- Python `d[k] = v` on a dict embedded as an association list:
replace in place when the key is present, append otherwise. -/
def alSet {α : Type} (d : List (String × α)) (k : String) (v : α) :
    List (String × α) :=
  match alLookup d k with
  | some _ => d.map (fun p => if p.1 = k then (k, v) else p)
  | none => d ++ [(k, v)]

/-- Python `del d[k]`: drop the entries whose key is `k`. -/
def alRemove {α : Type} : List (String × α) → String → List (String × α)
  | [], _ => []
  | (k', v) :: t, k => if k' = k then alRemove t k else (k', v) :: alRemove t k

/-- The keys of an association list, in order. -/
def alKeys {α : Type} (d : List (String × α)) : List String :=
  d.map Prod.fst

/-- Python `d.update(other)`: fold `d[k] = v` over the entries of `other`. -/
def dictUpdate {α : Type} (d other : List (String × α)) :
    List (String × α) :=
  other.foldl (fun acc p => alSet acc p.1 p.2) d

theorem alLookup_map_set {α : Type} (d : List (String × α)) (k : String)
    (v : α) (k' : String) :
    alLookup (d.map (fun p => if p.1 = k then (k, v) else p)) k'
      = if k' = k then (alLookup d k).map (fun _ => v) else alLookup d k' := by
  induction d with
  | nil => simp [alLookup]
  | cons a t ih =>
    rcases a with ⟨ak, av⟩
    simp only [List.map]
    by_cases hak : ak = k
    · subst hak
      have hhead : (if ((ak, av) : String × α).1 = ak then (ak, v) else (ak, av))
          = (ak, v) := if_pos rfl
      rw [hhead]
      by_cases hk' : k' = ak
      · subst hk'
        simp [alLookup]
      · simp [alLookup, hk', ih]
    · have hhead : (if ((ak, av) : String × α).1 = k then (k, v) else (ak, av))
          = (ak, av) := if_neg hak
      rw [hhead]
      by_cases hk' : k' = ak
      · subst hk'
        have hkk : ¬ k' = k := hak
        simp [alLookup, hkk]
      · by_cases hkk : k' = k
        · subst hkk
          simp [alLookup, hk', hak, ih]
        · simp [alLookup, hk', hkk, ih]

theorem alLookup_append {α : Type} (d₁ d₂ : List (String × α)) (k : String) :
    alLookup (d₁ ++ d₂) k = oElse (alLookup d₁ k) (alLookup d₂ k) := by
  induction d₁ with
  | nil => simp [alLookup, oElse]
  | cons a t ih =>
    rcases a with ⟨ak, av⟩
    by_cases h : k = ak
    · simp [alLookup, h, oElse]
    · simp [alLookup, h, ih]

theorem alLookup_alSet {α : Type} (d : List (String × α)) (k : String)
    (v : α) (k' : String) :
    alLookup (alSet d k v) k' = if k' = k then some v else alLookup d k' := by
  unfold alSet
  rcases hs : alLookup d k with _ | w
  · rw [alLookup_append]
    by_cases hk : k' = k
    · subst hk
      simp [hs, oElse, alLookup]
    · simp [hk, alLookup, oElse]
      cases alLookup d k' <;> simp [oElse]
  · rw [alLookup_map_set]
    by_cases hk : k' = k
    · simp [hk, hs]
    · simp [hk]

theorem alLookup_alRemove {α : Type} (d : List (String × α)) (k k' : String) :
    alLookup (alRemove d k) k' = if k' = k then none else alLookup d k' := by
  induction d with
  | nil => simp [alRemove, alLookup]
  | cons a t ih =>
    rcases a with ⟨ak, av⟩
    by_cases hak : ak = k
    · subst hak
      simp only [alRemove, if_pos rfl]
      by_cases hk' : k' = ak
      · subst hk'
        simp [ih]
      · simp [alLookup, hk', ih]
    · simp only [alRemove, if_neg hak]
      by_cases hk' : k' = ak
      · subst hk'
        have hkk : ¬ k' = k := hak
        simp [alLookup, hkk]
      · simp [alLookup, hk', ih]

theorem alLookup_eq_none_of_not_mem {α : Type} (d : List (String × α))
    (k : String) (h : k ∉ alKeys d) : alLookup d k = none := by
  induction d with
  | nil => rfl
  | cons a t ih =>
    rcases a with ⟨ak, av⟩
    simp [alKeys] at h
    simp [alLookup, h.1, ih (by simpa [alKeys] using h.2)]

theorem alLookup_dictUpdate {α : Type} (other : List (String × α)) :
    ∀ (d : List (String × α)), (alKeys other).Nodup → ∀ k : String,
      alLookup (dictUpdate d other) k
        = oElse (alLookup other k) (alLookup d k) := by
  induction other with
  | nil =>
    intro d _ k
    simp [dictUpdate, alLookup, oElse]
  | cons a t ih =>
    intro d hnd k
    rcases a with ⟨ak, av⟩
    have e : alKeys (((ak, av)) :: t) = ak :: alKeys t := rfl
    rw [e] at hnd
    have hsplit := List.nodup_cons.mp hnd
    have hstep : dictUpdate d ((ak, av) :: t)
        = dictUpdate (alSet d ak av) t := rfl
    rw [hstep, ih (alSet d ak av) hsplit.2 k]
    by_cases hk : k = ak
    · subst hk
      rw [alLookup_eq_none_of_not_mem t k hsplit.1]
      simp [alLookup, oElse, alLookup_alSet]
    · simp [alLookup, hk, alLookup_alSet]

/-! ## ML capability layer (`app/ml/`) -/

/-- A Python hyperparameter value: int, rational stand-in for float,
string, or Python `None`. -/
inductive HValue where
  | int (n : Int)
  | num (q : Rat)
  | str (s : String)
  | pyNone
deriving DecidableEq

/-- A Python hyperparameter dictionary. -/
abbrev HDict := List (String × HValue)

/-- Quality metrics returned by a training run (name to value;
the values are opaque to the orchestrator). -/
abbrev Metrics := List (String × Rat)

/-- Embeds `RandomForest.get_default_hyperparameters` (`app/ml/random_forest.py`). -/
def rfDefaults : HDict :=
  [("n_estimators", .int 100), ("max_depth", .pyNone),
   ("min_samples_split", .int 2), ("min_samples_leaf", .int 1),
   ("random_state", .int 42)]

/-- Embeds `LogisticRegression.get_default_hyperparameters`
(`app/ml/logistic_regression.py`). -/
def lrDefaults : HDict :=
  [("C", .num 1), ("max_iter", .int 100), ("solver", .str "lbfgs"),
   ("random_state", .int 42)]

/-- Embeds `MODEL_REGISTRY` (`app/ml/__init__.py`): algorithm-type name to the
capability's default hyperparameters (the only per-capability data the
claims depend on). -/
def MODEL_REGISTRY : List (String × HDict) :=
  [("LogisticRegression", lrDefaults), ("RandomForest", rfDefaults)]

/-- The error taxonomy of the lifecycle core: `ValueError` on an
unregistered type, `FileNotFoundError`, and `ValueError` on an
untrained model (save/predict guard). -/
inductive Err where
  | unknownCapability
  | notFound
  | notTrained
deriving DecidableEq

/-- A trainable unit (`BaseMLModel` subclass instance): the caller-supplied
hyperparameters (`self.hyperparameters`, `hyperparameters or {}`), the
parameters the sklearn estimator was constructed with
(`_get_model_params`), and the `is_trained` flag. -/
structure MLUnit where
  typeName : String
  hyperparameters : HDict
  modelParams : HDict
  is_trained : Bool
deriving DecidableEq

/-- Embeds `model_class(hyperparameters=...)`: the constructor stores
`hyperparameters or {}` and builds the estimator from
`_get_model_params()`, i.e. the defaults updated with the overrides. -/
def mkUnit (typeName : String) (hp : Option HDict) : MLUnit :=
  let h := hp.getD []
  { typeName := typeName
    hyperparameters := h
    modelParams := dictUpdate ((alLookup MODEL_REGISTRY typeName).getD []) h
    is_trained := false }

/-- Embeds `BaseMLModel.save` (`app/ml/base.py`): raises `ValueError` when
`is_trained` is false, otherwise persists the unit unchanged. -/
def MLUnit.save (u : MLUnit) : Except Err MLUnit :=
  if u.is_trained then .ok u else .error .notTrained

/-- Embeds `train` of a concrete capability (`RandomForest.train` /
`LogisticRegression.train`): fits, sets `is_trained`, and returns metrics.
The metric computation is opaque (`tm`); per the source it reads only the
estimator (built from `modelParams`) and the data baked into `tm`, never
the tracking task id — the task id is used only for progress logging,
every such call being wrapped in `try/except`. -/
def MLUnit.train (tm : String → HDict → Metrics) (u : MLUnit) :
    MLUnit × Metrics :=
  ({ u with is_trained := true }, tm u.typeName u.modelParams)

/-- Embeds `predict` of a concrete capability: raises `ValueError` when
`is_trained` is false, else delegates to the estimator (opaque `pf`). -/
def MLUnit.predict (pf : String → HDict → Nat → Nat) (u : MLUnit)
    (rows : Nat) : Except Err Nat :=
  if u.is_trained then .ok (pf u.typeName u.modelParams rows) else .error .notTrained

/-! ## Lifecycle orchestrator (`app/services/model_service.py`) -/

/-- A `ModelRecord`: one entry of the JSON metadata store
(`self._metadata[model_name]` as written by `train_model`). -/
structure ModelRecord where
  type : String
  created_at : Nat
  metrics : Metrics
  hyperparameters : HDict
  clearml_task_id : Option String
deriving DecidableEq

/-- The orchestrator's durable state: the artifact directory
(model name to saved unit, for `{name}.joblib` files) and the
metadata store (model name to record). -/
structure OrchSt where
  artifacts : List (String × MLUnit)
  metadata : List (String × ModelRecord)
deriving DecidableEq

/-- A primitive durable effect of a lifecycle operation, in the order
the source performs them. -/
inductive Event where
  | saveArtifact (name : String) (u : MLUnit)
  | writeRecord (name : String) (r : ModelRecord)
  | deleteArtifact (name : String)
  | deleteRecord (name : String)
deriving DecidableEq

/-- The state transition of a single durable effect. -/
def applyEvent (s : OrchSt) : Event → OrchSt
  | .saveArtifact n u => { s with artifacts := alSet s.artifacts n u }
  | .writeRecord n r => { s with metadata := alSet s.metadata n r }
  | .deleteArtifact n => { s with artifacts := alRemove s.artifacts n }
  | .deleteRecord n => { s with metadata := alRemove s.metadata n }

/-- What `ModelService.train_model` returns: the trained unit, the
metrics, and the tracking task id (or none). -/
structure TrainOut where
  unit : MLUnit
  metrics : Metrics
  clearml_task_id : Option String
deriving DecidableEq

/-- Embeds `ModelService.train_model`.  Here `tm` abstracts the numeric training
computation; `now` the timestamp; `enabled` the tracking side-channel's
`ClearMLService.enabled`; `createResult` the outcome of
`create_training_task` (already `Option`-valued in the source: every
internal failure is caught and surfaces as `None`).  Returns the result,
the final durable state, and the trace of durable effects in order.
All tracking calls (`log_training_progress`, `log_metrics`,
`upload_model`, task close) catch their own exceptions and touch neither
store, so they contribute nothing to state or trace. -/
def train_model (tm : String → HDict → Metrics) (now : Nat)
    (enabled : Bool) (createResult : Option String)
    (model_type model_name : String) (hp : Option HDict) (s : OrchSt) :
    Except Err TrainOut × OrchSt × List Event :=
  if (alLookup MODEL_REGISTRY model_type).isSome then
    let clearml_task_id := if enabled then createResult else none
    let model := mkUnit model_type hp
    let tr := MLUnit.train tm model
    match (tr.1).save with
    | .error e => (.error e, s, [])
    | .ok u =>
      let record : ModelRecord :=
        { type := model_type, created_at := now, metrics := tr.2
          hyperparameters := hp.getD [], clearml_task_id := clearml_task_id }
      let s1 : OrchSt := { s with artifacts := alSet s.artifacts model_name u }
      let s2 : OrchSt := { s1 with metadata := alSet s1.metadata model_name record }
      (.ok { unit := u, metrics := tr.2, clearml_task_id := clearml_task_id },
       s2,
       [.saveArtifact model_name u, .writeRecord model_name record])
  else
    (.error .unknownCapability, s, [])

/-- Embeds `ModelService.delete_model`: `FileNotFoundError` when no artifact
file exists; else unlink the artifact, then remove the record when
present. -/
def delete_model (model_name : String) (s : OrchSt) :
    Except Err Bool × OrchSt × List Event :=
  if (alLookup s.artifacts model_name).isSome then
    let s1 : OrchSt := { s with artifacts := alRemove s.artifacts model_name }
    if (alLookup s1.metadata model_name).isSome then
      (.ok true,
       { s1 with metadata := alRemove s1.metadata model_name },
       [.deleteArtifact model_name, .deleteRecord model_name])
    else
      (.ok true, s1, [.deleteArtifact model_name])
  else
    (.error .notFound, s, [])

/-- Embeds `ModelService.retrain_model`: `FileNotFoundError` when no record
exists; else re-runs `train_model` with the record's type and, when the
caller passed no hyperparameters, the record's stored ones. -/
def retrain_model (tm : String → HDict → Metrics) (now : Nat)
    (enabled : Bool) (createResult : Option String)
    (model_name : String) (hp : Option HDict) (s : OrchSt) :
    Except Err TrainOut × OrchSt × List Event :=
  match alLookup s.metadata model_name with
  | none => (.error .notFound, s, [])
  | some r =>
    let hp2 := match hp with
      | none => r.hyperparameters
      | some h => h
    train_model tm now enabled createResult r.type model_name (some hp2) s

/-- Embeds `ModelService.load_model`: `FileNotFoundError` when no artifact file
exists, else the persisted unit. -/
def load_model (model_name : String) (s : OrchSt) : Except Err MLUnit :=
  match alLookup s.artifacts model_name with
  | none => .error .notFound
  | some u => .ok u

/-- The predict path of the service layer: load the artifact by name,
then call the unit's `predict`. -/
def predict_model (pf : String → HDict → Nat → Nat) (model_name : String)
    (rows : Nat) (s : OrchSt) : Except Err Nat :=
  match load_model model_name s with
  | .error e => .error e
  | .ok u => u.predict pf rows

/-! ## Dataset repository (`app/services/dataset_service.py`) -/

/-- The dataset directory: file name to the tabular payload the file
encodes (payload type abstract). -/
abbrev FS (α : Type) := List (String × α)

/-- Embeds `DatasetService.save_dataset`: format from the name's extension,
`.csv` appended when neither extension is given; returns the file name
written.  The DVC upload touches no local file and swallows all errors. -/
def save_dataset {α : Type} (name : String) (data : α) (fs : FS α) :
    String × FS α :=
  if name.endsWith ".json" then
    (name, alSet fs name data)
  else
    let name2 := if name.endsWith ".csv" then name else name ++ ".csv"
    (name2, alSet fs name2 data)

/-- Embeds `DatasetService._find_dataset_file`: the exact name first, then the
name with each known extension appended (`.csv` before `.json`),
skipping an extension the name already carries. -/
def find_dataset_file {α : Type} (fs : FS α) (name : String) :
    Option (String × α) :=
  match alLookup fs name with
  | some d => some (name, d)
  | none =>
    match (if name.endsWith ".csv" then none else alLookup fs (name ++ ".csv")) with
    | some d => some (name ++ ".csv", d)
    | none =>
      match (if name.endsWith ".json" then none else alLookup fs (name ++ ".json")) with
      | some d => some (name ++ ".json", d)
      | none => none

/-- Embeds `DatasetService.load_dataset`: `FileNotFoundError` when resolution
fails, else the resolved file's payload. -/
def load_dataset {α : Type} (fs : FS α) (name : String) : Except Err α :=
  match find_dataset_file fs name with
  | none => .error .notFound
  | some fd => .ok fd.2

/-! ## Helper lemmas about the orchestrator -/

/-- Trained-unit and record produced by a successful `train_model` run. -/
def trainedUnit (ty : String) (hp : Option HDict) : MLUnit :=
  { mkUnit ty hp with is_trained := true }

/-- Record written by a successful `train_model` run. -/
def trainedRecord (tm : String → HDict → Metrics) (now : Nat)
    (enabled : Bool) (cr : Option String) (ty : String)
    (hp : Option HDict) : ModelRecord :=
  { type := ty, created_at := now
    metrics := tm ty (mkUnit ty hp).modelParams
    hyperparameters := hp.getD []
    clearml_task_id := if enabled then cr else none }

theorem train_model_eq_pos (tm : String → HDict → Metrics) (now : Nat)
    (enabled : Bool) (cr : Option String) (ty name : String)
    (hp : Option HDict) (s : OrchSt)
    (h : (alLookup MODEL_REGISTRY ty).isSome = true) :
    train_model tm now enabled cr ty name hp s
      = (.ok { unit := trainedUnit ty hp
               metrics := tm ty (mkUnit ty hp).modelParams
               clearml_task_id := if enabled then cr else none },
         { artifacts := alSet s.artifacts name (trainedUnit ty hp)
           metadata := alSet s.metadata name
             (trainedRecord tm now enabled cr ty hp) },
         [.saveArtifact name (trainedUnit ty hp),
          .writeRecord name (trainedRecord tm now enabled cr ty hp)]) := by
  simp [train_model, h, MLUnit.train, MLUnit.save, trainedUnit, trainedRecord, mkUnit]

theorem train_model_eq_neg (tm : String → HDict → Metrics) (now : Nat)
    (enabled : Bool) (cr : Option String) (ty name : String)
    (hp : Option HDict) (s : OrchSt)
    (h : alLookup MODEL_REGISTRY ty = none) :
    train_model tm now enabled cr ty name hp s
      = (.error .unknownCapability, s, []) := by
  simp [train_model, h]

theorem delete_model_eq_found_rec (name : String) (s : OrchSt)
    (h1 : (alLookup s.artifacts name).isSome = true)
    (h2 : (alLookup s.metadata name).isSome = true) :
    delete_model name s
      = (.ok true,
         { artifacts := alRemove s.artifacts name
           metadata := alRemove s.metadata name },
         [.deleteArtifact name, .deleteRecord name]) := by
  simp [delete_model, h1, h2]

theorem delete_model_eq_found_norec (name : String) (s : OrchSt)
    (h1 : (alLookup s.artifacts name).isSome = true)
    (h2 : alLookup s.metadata name = none) :
    delete_model name s
      = (.ok true,
         { artifacts := alRemove s.artifacts name, metadata := s.metadata },
         [.deleteArtifact name]) := by
  simp [delete_model, h1, h2]

theorem delete_model_eq_missing (name : String) (s : OrchSt)
    (h1 : alLookup s.artifacts name = none) :
    delete_model name s = (.error .notFound, s, []) := by
  simp [delete_model, h1]

theorem train_model_not_notFound (tm : String → HDict → Metrics) (now : Nat)
    (enabled : Bool) (cr : Option String) (ty name : String)
    (hp : Option HDict) (s : OrchSt) :
    (train_model tm now enabled cr ty name hp s).1 ≠ .error .notFound := by
  by_cases h : (alLookup MODEL_REGISTRY ty).isSome = true
  · rw [train_model_eq_pos tm now enabled cr ty name hp s h]
    simp
  · rw [train_model_eq_neg tm now enabled cr ty name hp s
      (Option.not_isSome_iff_eq_none.mp (by simpa using h))]
    simp

/-- The store-consistency invariant of the spec: a ModelRecord exists
iff an artifact file exists, name by name. -/
def LockstepInv (s : OrchSt) : Prop :=
  ∀ n, (alLookup s.artifacts n).isSome = (alLookup s.metadata n).isSome

/-- Every artifact on disk carries `is_trained = true`. -/
def AllTrained (s : OrchSt) : Prop :=
  ∀ n u, alLookup s.artifacts n = some u → u.is_trained = true

theorem train_model_inv_trace (tm : String → HDict → Metrics) (now : Nat)
    (enabled : Bool) (cr : Option String) (ty name : String)
    (hp : Option HDict) (s : OrchSt) (hInv : LockstepInv s) :
    LockstepInv (train_model tm now enabled cr ty name hp s).2.1
    ∧ (train_model tm now enabled cr ty name hp s).2.1
        = ((train_model tm now enabled cr ty name hp s).2.2).foldl applyEvent s
    ∧ (∀ o, (train_model tm now enabled cr ty name hp s).1 = .ok o →
        ∃ u r, (train_model tm now enabled cr ty name hp s).2.2
          = [.saveArtifact name u, .writeRecord name r]) := by
  by_cases h : (alLookup MODEL_REGISTRY ty).isSome = true
  · rw [train_model_eq_pos tm now enabled cr ty name hp s h]
    refine ⟨?_, rfl, ?_⟩
    · intro n
      by_cases hn : n = name <;> simp [alLookup_alSet, hn, hInv n]
    · intro o _
      exact ⟨_, _, rfl⟩
  · rw [train_model_eq_neg tm now enabled cr ty name hp s
      (Option.not_isSome_iff_eq_none.mp (by simpa using h))]
    refine ⟨hInv, rfl, ?_⟩
    intro o ho
    simp at ho

theorem retrain_model_inv_trace (tm : String → HDict → Metrics) (now : Nat)
    (enabled : Bool) (cr : Option String) (name : String)
    (hp : Option HDict) (s : OrchSt) (hInv : LockstepInv s) :
    LockstepInv (retrain_model tm now enabled cr name hp s).2.1
    ∧ (retrain_model tm now enabled cr name hp s).2.1
        = ((retrain_model tm now enabled cr name hp s).2.2).foldl applyEvent s
    ∧ (∀ o, (retrain_model tm now enabled cr name hp s).1 = .ok o →
        ∃ u r, (retrain_model tm now enabled cr name hp s).2.2
          = [.saveArtifact name u, .writeRecord name r]) := by
  rcases hm : alLookup s.metadata name with _ | r
  · have he : retrain_model tm now enabled cr name hp s
        = (.error .notFound, s, []) := by
      simp [retrain_model, hm]
    rw [he]
    refine ⟨hInv, rfl, ?_⟩
    intro o ho
    simp at ho
  · have he : retrain_model tm now enabled cr name hp s
        = train_model tm now enabled cr r.type name
            (some (match hp with | none => r.hyperparameters | some h => h)) s := by
      simp [retrain_model, hm]
    rw [he]
    exact train_model_inv_trace tm now enabled cr r.type name _ s hInv

theorem delete_model_inv_trace (name : String) (s : OrchSt) (hInv : LockstepInv s) :
    LockstepInv (delete_model name s).2.1
    ∧ (delete_model name s).2.1
        = ((delete_model name s).2.2).foldl applyEvent s
    ∧ (∀ b, (delete_model name s).1 = .ok b →
        (delete_model name s).2.2 = [.deleteArtifact name, .deleteRecord name]) := by
  by_cases h1 : (alLookup s.artifacts name).isSome = true
  · have h2 : (alLookup s.metadata name).isSome = true := by
      rw [← hInv name]; exact h1
    rw [delete_model_eq_found_rec name s h1 h2]
    refine ⟨?_, rfl, fun b _ => rfl⟩
    intro n
    by_cases hn : n = name <;> simp [alLookup_alRemove, hn, hInv n]
  · rw [delete_model_eq_missing name s
      (Option.not_isSome_iff_eq_none.mp (by simpa using h1))]
    refine ⟨hInv, rfl, ?_⟩
    intro b hb
    simp at hb

/-! ## Result projections used by the hyperproperty claim -/

/-- The error of a result, if any (`none` on success). -/
def resErr {β : Type} : Except Err β → Option Err
  | .ok _ => none
  | .error e => some e

/-- The metrics of a successful train result. -/
def resMetrics : Except Err TrainOut → Option Metrics
  | .ok o => some o.metrics
  | .error _ => none

/-- The tracking id returned by a successful train result
(`none` on failure). -/
def okTid : Except Err TrainOut → Option String
  | .ok o => o.clearml_task_id
  | .error _ => none

/-! ## Claim theorems -/

/-- C1: every lifecycle operation (train, retrain, delete) preserves the
record-iff-artifact lockstep invariant; the operation's durable effects,
applied in trace order, reproduce its final state; a successful
train/retrain emits exactly artifact-save followed by record-write, and a
successful delete (from an invariant state) emits exactly artifact-delete
followed by record-delete — never the reverse order. -/
theorem lifecycle_lockstep_invariant (tm : String → HDict → Metrics)
    (now : Nat) (enabled : Bool) (cr : Option String)
    (ty name rname dname : String) (hp rhp : Option HDict) (s : OrchSt)
    (hInv : LockstepInv s) :
    (LockstepInv (train_model tm now enabled cr ty name hp s).2.1
      ∧ (train_model tm now enabled cr ty name hp s).2.1
          = ((train_model tm now enabled cr ty name hp s).2.2).foldl applyEvent s
      ∧ (∀ o, (train_model tm now enabled cr ty name hp s).1 = .ok o →
          ∃ u r, (train_model tm now enabled cr ty name hp s).2.2
            = [.saveArtifact name u, .writeRecord name r]))
    ∧ (LockstepInv (retrain_model tm now enabled cr rname rhp s).2.1
      ∧ (retrain_model tm now enabled cr rname rhp s).2.1
          = ((retrain_model tm now enabled cr rname rhp s).2.2).foldl applyEvent s
      ∧ (∀ o, (retrain_model tm now enabled cr rname rhp s).1 = .ok o →
          ∃ u r, (retrain_model tm now enabled cr rname rhp s).2.2
            = [.saveArtifact rname u, .writeRecord rname r]))
    ∧ (LockstepInv (delete_model dname s).2.1
      ∧ (delete_model dname s).2.1
          = ((delete_model dname s).2.2).foldl applyEvent s
      ∧ (∀ b, (delete_model dname s).1 = .ok b →
          (delete_model dname s).2.2
            = [.deleteArtifact dname, .deleteRecord dname])) :=
  ⟨train_model_inv_trace tm now enabled cr ty name hp s hInv,
   retrain_model_inv_trace tm now enabled cr rname rhp s hInv,
   delete_model_inv_trace dname s hInv⟩

/-- C1 witness: the invariant holds after a concrete train run from the
empty state. -/
theorem lifecycle_lockstep_invariant_witness :
    LockstepInv (train_model (fun _ _ => ([] : Metrics)) 0 false none
      "RandomForest" "m" none ⟨[], []⟩).2.1 :=
  (lifecycle_lockstep_invariant (fun _ _ => ([] : Metrics)) 0 false none
    "RandomForest" "m" "m" "m" none none ⟨[], []⟩ (fun _ => rfl)).1.1

/-- C2 counterexample: with a ModelRecord for "m" present but no artifact
file, `delete_model` fails with NotFound instead of succeeding by
removing the record alone. -/
theorem delete_orphan_record_counterexample :
    ((alLookup (⟨[], [("m", ⟨"RandomForest", 0, [], [], none⟩)]⟩ :
        OrchSt).metadata "m").isSome = true)
    ∧ (delete_model "m"
        ⟨[], [("m", ⟨"RandomForest", 0, [], [], none⟩)]⟩).1
        = .error .notFound :=
  ⟨rfl, rfl⟩

/-- C2 (amended): delete fails with NotFound exactly when no artifact
file exists — even when an orphaned record exists; on success it removes
the artifact first and then the record; and in the degenerate state where
an artifact exists without a record, delete succeeds by removing the
artifact alone. -/
theorem delete_model_spec (name : String) (s : OrchSt) :
    ((delete_model name s).1 = .error .notFound
        ↔ alLookup s.artifacts name = none)
    ∧ ((alLookup s.artifacts name).isSome = true →
        (alLookup s.metadata name).isSome = true →
        delete_model name s = (.ok true,
          { artifacts := alRemove s.artifacts name
            metadata := alRemove s.metadata name },
          [.deleteArtifact name, .deleteRecord name]))
    ∧ ((alLookup s.artifacts name).isSome = true →
        alLookup s.metadata name = none →
        delete_model name s = (.ok true,
          { artifacts := alRemove s.artifacts name, metadata := s.metadata },
          [.deleteArtifact name])) := by
  refine ⟨⟨?_, ?_⟩, delete_model_eq_found_rec name s,
    delete_model_eq_found_norec name s⟩
  · intro h
    by_cases h1 : (alLookup s.artifacts name).isSome = true
    · by_cases h2 : (alLookup s.metadata name).isSome = true
      · rw [delete_model_eq_found_rec name s h1 h2] at h
        simp at h
      · rw [delete_model_eq_found_norec name s h1
          (Option.not_isSome_iff_eq_none.mp (by simpa using h2))] at h
        simp at h
    · exact Option.not_isSome_iff_eq_none.mp (by simpa using h1)
  · intro h
    rw [delete_model_eq_missing name s h]

/-- C2 witness: deleting a concrete model with artifact and record
removes both, artifact effect first. -/
theorem delete_model_spec_witness :
    delete_model "m"
        ⟨[("m", ⟨"RandomForest", [], rfDefaults, true⟩)],
         [("m", ⟨"RandomForest", 0, [], [], none⟩)]⟩
      = (.ok true, ⟨[], []⟩, [.deleteArtifact "m", .deleteRecord "m"]) :=
  (delete_model_spec "m"
    ⟨[("m", ⟨"RandomForest", [], rfDefaults, true⟩)],
     [("m", ⟨"RandomForest", 0, [], [], none⟩)]⟩).2.1 rfl rfl

/-- C3 counterexample: training RandomForest with the single override
n_estimators=10 stores exactly the override mapping in the record; the
effective values the estimator was built from (defaults updated with the
override) additionally carry max_depth, which the stored mapping lacks. -/
theorem stored_hyperparameters_counterexample :
    (alLookup (train_model (fun _ _ => ([] : Metrics)) 0 false none
        "RandomForest" "m" (some [("n_estimators", HValue.int 10)])
        ⟨[], []⟩).2.1.metadata "m").map ModelRecord.hyperparameters
      = some [("n_estimators", HValue.int 10)]
    ∧ (mkUnit "RandomForest" (some [("n_estimators", HValue.int 10)])).modelParams
      = dictUpdate rfDefaults [("n_estimators", HValue.int 10)]
    ∧ alLookup (dictUpdate rfDefaults [("n_estimators", HValue.int 10)]) "max_depth"
      = some HValue.pyNone
    ∧ alLookup ([("n_estimators", HValue.int 10)] : HDict) "max_depth" = none :=
  ⟨rfl, rfl, rfl, rfl⟩

/-- C3 (amended): for every successful train, the ModelRecord stores the
caller-supplied overrides (the empty mapping when none were supplied),
not the merged effective values; the merged effective values — the
capability's defaults updated with the overrides — are what the returned
unit's estimator was constructed from. -/
theorem stored_hyperparameters_are_overrides (tm : String → HDict → Metrics)
    (now : Nat) (enabled : Bool) (cr : Option String) (ty name : String)
    (hp : Option HDict) (s : OrchSt)
    (h : (alLookup MODEL_REGISTRY ty).isSome = true) :
    (alLookup (train_model tm now enabled cr ty name hp s).2.1.metadata
        name).map ModelRecord.hyperparameters = some (hp.getD [])
    ∧ (∀ o, (train_model tm now enabled cr ty name hp s).1 = .ok o →
        o.unit.hyperparameters = hp.getD []
        ∧ o.unit.modelParams
            = dictUpdate ((alLookup MODEL_REGISTRY ty).getD [])
                (hp.getD [])) := by
  rw [train_model_eq_pos tm now enabled cr ty name hp s h]
  constructor
  · simp [alLookup_alSet, trainedRecord]
  · intro o ho
    simp only at ho
    injection ho with ho2
    subst ho2
    exact ⟨rfl, rfl⟩

/-- C3 witness: a concrete train with no overrides stores the empty
mapping. -/
theorem stored_hyperparameters_are_overrides_witness :
    (alLookup (train_model (fun _ _ => ([] : Metrics)) 0 false none
        "LogisticRegression" "m" none ⟨[], []⟩).2.1.metadata "m").map
        ModelRecord.hyperparameters = some [] :=
  (stored_hyperparameters_are_overrides (fun _ _ => ([] : Metrics)) 0 false
    none "LogisticRegression" "m" none ⟨[], []⟩ rfl).1

/-- C4: disabling the tracking side-channel versus enabling it (with any
outcome of the tracked-run creation, failures included — the source
swallows every tracking exception) changes neither the success/failure
outcome of train nor the returned metrics; the disabled run's tracking id
is absent; and the only error train can ever surface is
UnknownCapability, so no tracking failure propagates out. -/
theorem train_tracking_noninterference (tm : String → HDict → Metrics)
    (now : Nat) (cr cr2 : Option String) (ty name : String)
    (hp : Option HDict) (s : OrchSt) :
    resErr (train_model tm now true cr ty name hp s).1
      = resErr (train_model tm now false cr2 ty name hp s).1
    ∧ resMetrics (train_model tm now true cr ty name hp s).1
      = resMetrics (train_model tm now false cr2 ty name hp s).1
    ∧ okTid (train_model tm now false cr2 ty name hp s).1 = none
    ∧ (resErr (train_model tm now true cr ty name hp s).1 = none
        ∨ resErr (train_model tm now true cr ty name hp s).1
            = some .unknownCapability) := by
  by_cases h : (alLookup MODEL_REGISTRY ty).isSome = true
  · rw [train_model_eq_pos tm now true cr ty name hp s h,
      train_model_eq_pos tm now false cr2 ty name hp s h]
    exact ⟨rfl, rfl, rfl, Or.inl rfl⟩
  · rw [train_model_eq_neg tm now true cr ty name hp s
      (Option.not_isSome_iff_eq_none.mp (by simpa using h)),
      train_model_eq_neg tm now false cr2 ty name hp s
      (Option.not_isSome_iff_eq_none.mp (by simpa using h))]
    exact ⟨rfl, rfl, rfl, Or.inr rfl⟩

/-- C5: retrain fails with NotFound exactly when no ModelRecord exists;
on success it re-enters train with the record's stored type, passing the
record's stored hyperparameters when the caller supplied none and the
caller's own otherwise — inheriting train's artifact-overwrite and
record-overwrite semantics verbatim. -/
theorem retrain_model_spec (tm : String → HDict → Metrics) (now : Nat)
    (enabled : Bool) (cr : Option String) (name : String)
    (hp : Option HDict) (s : OrchSt) :
    ((retrain_model tm now enabled cr name hp s).1 = .error .notFound
        ↔ alLookup s.metadata name = none)
    ∧ (∀ r, alLookup s.metadata name = some r → hp = none →
        retrain_model tm now enabled cr name hp s
          = train_model tm now enabled cr r.type name
              (some r.hyperparameters) s)
    ∧ (∀ r h0, alLookup s.metadata name = some r → hp = some h0 →
        retrain_model tm now enabled cr name hp s
          = train_model tm now enabled cr r.type name (some h0) s) := by
  refine ⟨⟨?_, ?_⟩, ?_, ?_⟩
  · intro h
    rcases hm : alLookup s.metadata name with _ | r
    · rfl
    · exfalso
      rcases hp with _ | h0
      · have he : retrain_model tm now enabled cr name none s
            = train_model tm now enabled cr r.type name
                (some r.hyperparameters) s := by
          simp [retrain_model, hm]
        rw [he] at h
        exact train_model_not_notFound tm now enabled cr r.type name _ s h
      · have he : retrain_model tm now enabled cr name (some h0) s
            = train_model tm now enabled cr r.type name (some h0) s := by
          simp [retrain_model, hm]
        rw [he] at h
        exact train_model_not_notFound tm now enabled cr r.type name _ s h
  · intro h
    simp [retrain_model, h]
  · intro r hm hnone
    subst hnone
    simp [retrain_model, hm]
  · intro r h0 hm hsome
    subst hsome
    simp [retrain_model, hm]

/-- C5 witness: retraining a concrete model without new hyperparameters
re-enters train with the stored type and stored hyperparameters. -/
theorem retrain_model_spec_witness :
    retrain_model (fun _ _ => ([] : Metrics)) 0 false none "m" none
        ⟨[("m", ⟨"RandomForest", [("n_estimators", HValue.int 10)],
            rfDefaults, true⟩)],
         [("m", ⟨"RandomForest", 5, [],
            [("n_estimators", HValue.int 10)], none⟩)]⟩
      = train_model (fun _ _ => ([] : Metrics)) 0 false none
          "RandomForest" "m" (some [("n_estimators", HValue.int 10)])
          ⟨[("m", ⟨"RandomForest", [("n_estimators", HValue.int 10)],
              rfDefaults, true⟩)],
           [("m", ⟨"RandomForest", 5, [],
              [("n_estimators", HValue.int 10)], none⟩)]⟩ :=
  (retrain_model_spec (fun _ _ => ([] : Metrics)) 0 false none "m" none
    ⟨[("m", ⟨"RandomForest", [("n_estimators", HValue.int 10)],
        rfDefaults, true⟩)],
     [("m", ⟨"RandomForest", 5, [],
        [("n_estimators", HValue.int 10)], none⟩)]⟩).2.1
    ⟨"RandomForest", 5, [], [("n_estimators", HValue.int 10)], none⟩ rfl rfl

/-- C6: train fails with UnknownCapability iff the requested type is not
a key of the capability registry, and on that failure neither store is
modified and no durable effect is emitted — the check precedes every
side effect. -/
theorem train_unknown_capability_iff (tm : String → HDict → Metrics)
    (now : Nat) (enabled : Bool) (cr : Option String) (ty name : String)
    (hp : Option HDict) (s : OrchSt) :
    ((train_model tm now enabled cr ty name hp s).1
        = .error .unknownCapability
      ↔ alLookup MODEL_REGISTRY ty = none)
    ∧ (alLookup MODEL_REGISTRY ty = none →
        (train_model tm now enabled cr ty name hp s).2.1 = s
        ∧ (train_model tm now enabled cr ty name hp s).2.2 = []) := by
  constructor
  · constructor
    · intro h
      by_cases hreg : (alLookup MODEL_REGISTRY ty).isSome = true
      · rw [train_model_eq_pos tm now enabled cr ty name hp s hreg] at h
        simp at h
      · exact Option.not_isSome_iff_eq_none.mp (by simpa using hreg)
    · intro h
      rw [train_model_eq_neg tm now enabled cr ty name hp s h]
  · intro h
    rw [train_model_eq_neg tm now enabled cr ty name hp s h]
    exact ⟨rfl, rfl⟩

/-- C6 witness: a concrete unregistered type leaves the concrete state
untouched. -/
theorem train_unknown_capability_iff_witness :
    (train_model (fun _ _ => ([] : Metrics)) 0 false none "SVM" "m" none
        ⟨[], []⟩).2.1 = ⟨[], []⟩
    ∧ (train_model (fun _ _ => ([] : Metrics)) 0 false none "SVM" "m" none
        ⟨[], []⟩).1 = .error .unknownCapability :=
  ⟨((train_unknown_capability_iff (fun _ _ => ([] : Metrics)) 0 false none
      "SVM" "m" none ⟨[], []⟩).2 rfl).1,
   (train_unknown_capability_iff (fun _ _ => ([] : Metrics)) 0 false none
      "SVM" "m" none ⟨[], []⟩).1.mpr rfl⟩

/-- C8: for every registered capability and caller-supplied mapping with
distinct keys, the parameters the estimator is constructed with are the
capability's defaults overridden pointwise by the caller's mapping —
explicit values win on shared keys, defaults are retained on the rest. -/
theorem estimator_params_merge (ty : String) (defaults : HDict)
    (hreg : alLookup MODEL_REGISTRY ty = some defaults)
    (h : HDict) (hnd : (alKeys h).Nodup) (k : String) :
    alLookup ((mkUnit ty (some h)).modelParams) k
      = oElse (alLookup h k) (alLookup defaults k)
    ∧ (∀ v, alLookup h k = some v →
        alLookup ((mkUnit ty (some h)).modelParams) k = some v)
    ∧ (alLookup h k = none →
        alLookup ((mkUnit ty (some h)).modelParams) k
          = alLookup defaults k) := by
  have hbase : alLookup ((mkUnit ty (some h)).modelParams) k
      = oElse (alLookup h k) (alLookup defaults k) := by
    have hu := alLookup_dictUpdate h defaults hnd k
    simp only [mkUnit, hreg, Option.getD_some]
    exact hu
  refine ⟨hbase, ?_, ?_⟩
  · intro v hv
    rw [hbase, hv]
    rfl
  · intro hv
    rw [hbase, hv]
    rfl

/-- C8 witness: for RandomForest with the single override n_estimators=10,
the constructed parameters take the override on the shared key and the
default on max_depth. -/
theorem estimator_params_merge_witness :
    alLookup ((mkUnit "RandomForest"
        (some [("n_estimators", HValue.int 10)])).modelParams) "n_estimators"
      = some (HValue.int 10)
    ∧ alLookup ((mkUnit "RandomForest"
        (some [("n_estimators", HValue.int 10)])).modelParams) "max_depth"
      = some HValue.pyNone :=
  ⟨(estimator_params_merge "RandomForest" rfDefaults rfl
      [("n_estimators", HValue.int 10)] (by decide) "n_estimators").2.1
      (HValue.int 10) rfl,
   by
    rw [(estimator_params_merge "RandomForest" rfDefaults rfl
      [("n_estimators", HValue.int 10)] (by decide) "max_depth").2.2 rfl]
    rfl⟩

theorem train_model_allTrained (tm : String → HDict → Metrics) (now : Nat)
    (enabled : Bool) (cr : Option String) (ty name : String)
    (hp : Option HDict) (s : OrchSt) (hAll : AllTrained s) :
    AllTrained (train_model tm now enabled cr ty name hp s).2.1 := by
  by_cases h : (alLookup MODEL_REGISTRY ty).isSome = true
  · rw [train_model_eq_pos tm now enabled cr ty name hp s h]
    intro n u0 hl
    rw [alLookup_alSet] at hl
    by_cases hn : n = name
    · rw [if_pos hn] at hl
      cases hl
      rfl
    · rw [if_neg hn] at hl
      exact hAll n u0 hl
  · rw [train_model_eq_neg tm now enabled cr ty name hp s
      (Option.not_isSome_iff_eq_none.mp (by simpa using h))]
    exact hAll

theorem retrain_model_allTrained (tm : String → HDict → Metrics)
    (now : Nat) (enabled : Bool) (cr : Option String) (name : String)
    (hp : Option HDict) (s : OrchSt) (hAll : AllTrained s) :
    AllTrained (retrain_model tm now enabled cr name hp s).2.1 := by
  rcases hm : alLookup s.metadata name with _ | r
  · have he : retrain_model tm now enabled cr name hp s
        = (.error .notFound, s, []) := by
      simp [retrain_model, hm]
    rw [he]
    exact hAll
  · have he : retrain_model tm now enabled cr name hp s
        = train_model tm now enabled cr r.type name
            (some (match hp with | none => r.hyperparameters | some h => h))
            s := by
      simp [retrain_model, hm]
    rw [he]
    exact train_model_allTrained tm now enabled cr r.type name _ s hAll

theorem delete_model_allTrained (name : String) (s : OrchSt)
    (hAll : AllTrained s) : AllTrained (delete_model name s).2.1 := by
  by_cases h1 : (alLookup s.artifacts name).isSome = true
  · by_cases h2 : (alLookup s.metadata name).isSome = true
    · rw [delete_model_eq_found_rec name s h1 h2]
      intro n u0 hl
      rw [alLookup_alRemove] at hl
      by_cases hn : n = name
      · rw [if_pos hn] at hl
        cases hl
      · rw [if_neg hn] at hl
        exact hAll n u0 hl
    · rw [delete_model_eq_found_norec name s h1
        (Option.not_isSome_iff_eq_none.mp (by simpa using h2))]
      intro n u0 hl
      rw [alLookup_alRemove] at hl
      by_cases hn : n = name
      · rw [if_pos hn] at hl
        cases hl
      · rw [if_neg hn] at hl
        exact hAll n u0 hl
  · rw [delete_model_eq_missing name s
      (Option.not_isSome_iff_eq_none.mp (by simpa using h1))]
    exact hAll

/-- C9: the unit-level predict fails with NotTrained exactly on a unit
whose trained flag is false, and the artifact store's save refuses such a
unit; every lifecycle operation preserves the all-artifacts-trained
invariant, so from any such store the predict path can never surface
NotTrained — the branch is defensively dead. -/
theorem predict_notTrained_unreachable (pf : String → HDict → Nat → Nat)
    (tm : String → HDict → Metrics) (now : Nat) (enabled : Bool)
    (cr : Option String) (name tname dname ty : String) (rows : Nat)
    (hp : Option HDict) (u : MLUnit) (s : OrchSt) :
    (u.is_trained = false → u.predict pf rows = .error .notTrained)
    ∧ (u.is_trained = false → u.save = .error .notTrained)
    ∧ (AllTrained s → predict_model pf name rows s ≠ .error .notTrained)
    ∧ (AllTrained s →
        AllTrained (train_model tm now enabled cr ty tname hp s).2.1
        ∧ AllTrained (retrain_model tm now enabled cr tname hp s).2.1
        ∧ AllTrained (delete_model dname s).2.1) := by
  refine ⟨?_, ?_, ?_, ?_⟩
  · intro h
    simp [MLUnit.predict, h]
  · intro h
    simp [MLUnit.save, h]
  · intro hAll
    unfold predict_model load_model
    rcases hl : alLookup s.artifacts name with _ | u0
    · simp
    · have ht := hAll name u0 hl
      simp [MLUnit.predict, ht]
  · intro hAll
    exact ⟨train_model_allTrained tm now enabled cr ty tname hp s hAll,
      retrain_model_allTrained tm now enabled cr tname hp s hAll,
      delete_model_allTrained dname s hAll⟩

/-- C9 witness: from the empty store, predict on a concrete name cannot
surface NotTrained (it surfaces NotFound instead). -/
theorem predict_notTrained_unreachable_witness :
    predict_model (fun _ _ _ => 0) "m" 0 ⟨[], []⟩ ≠ .error .notTrained :=
  (predict_notTrained_unreachable (fun _ _ _ => 0)
    (fun _ _ => ([] : Metrics)) 0 false none "m" "m" "m" "RandomForest" 0
    none ⟨"t", [], [], false⟩ ⟨[], []⟩).2.2.1
    (fun _ _ hl => Option.noConfusion hl)

theorem self_ne_append_ext (name ext : String) (h : 0 < ext.length) :
    ¬ (name = name ++ ext) := by
  intro he
  have hlen := congrArg String.length he
  rw [String.length_append] at hlen
  omega

theorem find_dataset_file_eq_none_iff {α : Type} (fs : FS α) (m : String) :
    find_dataset_file fs m = none
      ↔ (alLookup fs m = none
         ∧ (m.endsWith ".csv" = true ∨ alLookup fs (m ++ ".csv") = none)
         ∧ (m.endsWith ".json" = true ∨ alLookup fs (m ++ ".json") = none)) := by
  unfold find_dataset_file
  rcases h1 : alLookup fs m with _ | d1
  · cases hc : m.endsWith ".csv"
    · rcases h2 : alLookup fs (m ++ ".csv") with _ | d2
      · cases hj : m.endsWith ".json"
        · rcases h3 : alLookup fs (m ++ ".json") with _ | d3
          · simp [h1, hc, h2, hj, h3]
          · simp [h1, hc, h2, hj, h3]
        · simp [h1, hc, h2, hj]
      · simp [h1, hc, h2]
    · cases hj : m.endsWith ".json"
      · rcases h3 : alLookup fs (m ++ ".json") with _ | d3
        · simp [h1, hc, hj, h3]
        · simp [h1, hc, hj, h3]
      · simp [h1, hc, hj]
  · simp [h1]

/-- C7: saving a bare name as CSV makes `load` succeed on both the bare
name and the name with the CSV extension, returning the same saved data;
and in general `load` fails with NotFound exactly when neither the name
as given nor the name with a known extension appended names a file. -/
theorem dataset_roundtrip (α : Type) (name : String) (d : α) (fs : FS α)
    (h1 : name.endsWith ".csv" = false)
    (h2 : name.endsWith ".json" = false)
    (h3 : alLookup fs name = none) :
    (load_dataset (save_dataset name d fs).2 name = .ok d
      ∧ load_dataset (save_dataset name d fs).2 (name ++ ".csv") = .ok d)
    ∧ (∀ m : String, load_dataset fs m = .error .notFound
        ↔ (alLookup fs m = none
           ∧ (m.endsWith ".csv" = true ∨ alLookup fs (m ++ ".csv") = none)
           ∧ (m.endsWith ".json" = true
              ∨ alLookup fs (m ++ ".json") = none))) := by
  have hfs : (save_dataset name d fs).2 = alSet fs (name ++ ".csv") d := by
    simp [save_dataset, h1, h2]
  have hneq : ¬ (name = name ++ ".csv") :=
    self_ne_append_ext name ".csv" (by decide)
  refine ⟨⟨?_, ?_⟩, ?_⟩
  · simp [load_dataset, find_dataset_file, hfs, alLookup_alSet, hneq, h3, h1]
  · simp [load_dataset, find_dataset_file, hfs, alLookup_alSet]
  · intro m
    constructor
    · intro h
      rcases hf : find_dataset_file fs m with _ | fd
      · exact (find_dataset_file_eq_none_iff fs m).mp hf
      · exfalso
        simp [load_dataset, hf] at h
    · intro h
      have hf := (find_dataset_file_eq_none_iff fs m).mpr h
      simp [load_dataset, hf]

/-- C7 witness: saving "x" into the empty dataset directory makes both
loads succeed with the saved payload. -/
theorem dataset_roundtrip_witness :
    load_dataset (save_dataset "x" (7 : Nat) []).2 "x" = .ok 7
    ∧ load_dataset (save_dataset "x" (7 : Nat) []).2 ("x" ++ ".csv")
        = .ok 7 :=
  (dataset_roundtrip Nat "x" 7 [] rfl rfl rfl).1

/-- C10: dataset resolution precedence — an exact file-name match is
returned first; otherwise the name with ".csv" appended is tried before
the name with ".json" appended; consequently when both candidates exist,
load of the bare name deterministically returns the CSV file's data. -/
theorem dataset_resolution_precedence (α : Type) (fs : FS α) (n : String)
    (d dc dj : α) :
    (alLookup fs n = some d → find_dataset_file fs n = some (n, d))
    ∧ (alLookup fs n = none → n.endsWith ".csv" = false →
        alLookup fs (n ++ ".csv") = some dc →
        find_dataset_file fs n = some (n ++ ".csv", dc))
    ∧ (alLookup fs n = none → n.endsWith ".csv" = false →
        n.endsWith ".json" = false →
        alLookup fs (n ++ ".csv") = some dc →
        alLookup fs (n ++ ".json") = some dj →
        load_dataset fs n = .ok dc) := by
  refine ⟨?_, ?_, ?_⟩
  · intro h
    simp [find_dataset_file, h]
  · intro h hcsv h2
    simp [find_dataset_file, h, hcsv, h2]
  · intro h hcsv hjson h2 h3
    simp [load_dataset, find_dataset_file, h, hcsv, h2]

/-- C10 witness: with both x.csv and x.json present, load "x" returns the
CSV payload. -/
theorem dataset_resolution_precedence_witness :
    load_dataset [("x.csv", (1 : Nat)), ("x.json", 2)] "x" = .ok 1 :=
  (dataset_resolution_precedence Nat [("x.csv", 1), ("x.json", 2)] "x"
    1 1 2).2.2 rfl rfl rfl (by decide) (by decide)
